import Mathlib

/-!
# Verification of the resume-parsing pipeline

Shallow embedding of the Python sources `json_handler.py`, `file_reader.py`,
`mongo_db.py` and `resume_parser.py` of the `openai_resume` repository,
together with proofs about the specification's claims.

Conventions of the embedding:
* Python exceptions are modelled by the `PyErr` type and fallible code by
  `Except PyErr`; a `try/except` block becomes a `match` on the body's result
  with one arm per `except` clause.
* The filesystem is a value `FS`: an association list of file contents plus
  oracles describing which paths can be opened for writing and which reads
  fail with an I/O error.
* External collaborators (the document-format decoders, the completion
  service, the document store driver) are oracles supplied as parameters,
  matching the spec's treatment of them as black boxes.
* `json.dump(obj, f, ensure_ascii=False, indent=4)` and `json.load` are
  modelled by an executable serializer and recursive-descent parser over the
  JSON fragment used by the repository (flat objects of strings, integers,
  booleans and null, plus top-level primitives).  Floats are outside the
  shallow embedding.
-/

/-- Python exception values, one constructor per exception class the sources
mention.  Every constructor models a subclass of `Exception`, so a generic
`except Exception` clause catches all of them. -/
inductive PyErr where
  | fileNotFound (msg : String)
  | permissionError (msg : String)
  | jsonDecodeError (msg : String)
  | valueError (msg : String)
  | attributeError (msg : String)
  | connectionFailure (msg : String)
  | writeError (msg : String)
  | exception (msg : String)
deriving DecidableEq, Repr

/-- The `str(e)` message of an exception. -/
def PyErr.msg : PyErr → String
  | .fileNotFound m => m
  | .permissionError m => m
  | .jsonDecodeError m => m
  | .valueError m => m
  | .attributeError m => m
  | .connectionFailure m => m
  | .writeError m => m
  | .exception m => m

/-- Scalar JSON values, following the value type the sources declare for
configuration dictionaries: `Union[str, int, float, bool, None]` (floats are
not representable in the shallow embedding and are omitted). -/
inductive JVal where
  | s (v : String)
  | i (v : Int)
  | b (v : Bool)
  | null
deriving DecidableEq, Repr

/-- A decoded JSON document: a flat object (Python dict, in insertion order)
or a top-level scalar. -/
inductive PyJson where
  | obj (m : List (String × JVal))
  | prim (v : JVal)
deriving DecidableEq, Repr

/-! ## Serialization: `json.dump(obj, file, ensure_ascii=False, indent=4)` -/

/-- Lower-case hexadecimal digit, as used by Python's `\uXXXX` escapes. -/
def hexDigit (n : Nat) : Char :=
  if n < 10 then Char.ofNat (48 + n) else Char.ofNat (87 + n)

/-- How `json.dump` with `ensure_ascii=False` writes one character of a
string: the two-character named escapes, `\u00XX` for the remaining control
characters, everything else verbatim. -/
def escChar (c : Char) : List Char :=
  if c = '"' then ['\\', '"']
  else if c = '\\' then ['\\', '\\']
  else if c = '\n' then ['\\', 'n']
  else if c = '\t' then ['\\', 't']
  else if c = '\r' then ['\\', 'r']
  else if c = Char.ofNat 8 then ['\\', 'b']
  else if c = Char.ofNat 12 then ['\\', 'f']
  else if c.toNat < 32 then
    ['\\', 'u', '0', '0', hexDigit (c.toNat / 16), hexDigit (c.toNat % 16)]
  else [c]

def escString : List Char → List Char
  | [] => []
  | c :: cs => escChar c ++ escString cs

def digitChar (n : Nat) : Char := Char.ofNat (48 + n)

/-- Decimal digits of a natural number, as `str(n)` prints them. -/
def natRepr (n : Nat) : List Char :=
  if n < 10 then [digitChar n]
  else natRepr (n / 10) ++ [digitChar (n % 10)]
decreasing_by exact Nat.div_lt_self (by omega) (by omega)

/-- `str(v)` for a Python integer. -/
def intRepr : Int → List Char
  | .ofNat n => natRepr n
  | .negSucc n => '-' :: natRepr (n + 1)

/-- Serialization of one scalar JSON value. -/
def dumpVal : JVal → List Char
  | .s v => '"' :: (escString v.data ++ ['"'])
  | .i v => intRepr v
  | .b true => ['t', 'r', 'u', 'e']
  | .b false => ['f', 'a', 'l', 's', 'e']
  | .null => ['n', 'u', 'l', 'l']

/-- One `"key": value` member line at indent level 1 (four spaces), as
`indent=4` prints it. -/
def dumpEntry : String × JVal → List Char
  | (k, v) => [' ', ' ', ' ', ' ', '"'] ++ escString k.data ++ ['"', ':', ' '] ++ dumpVal v

/-- The members after the first one, each preceded by the `",\n"` item
separator. -/
def dumpTail : List (String × JVal) → List Char
  | [] => []
  | e :: es => ',' :: '\n' :: (dumpEntry e ++ dumpTail es)

/-- `json.dumps(m, ensure_ascii=False, indent=4)` for a flat dict `m`. -/
def dumpObj : List (String × JVal) → List Char
  | [] => ['{', '}']
  | e :: es => '{' :: '\n' :: (dumpEntry e ++ dumpTail es ++ ['\n', '}'])

def dumpObjStr (m : List (String × JVal)) : String := String.mk (dumpObj m)

/-- `json.dumps(v, indent=4)` of an arbitrary decoded value (`None` prints as
`null`).  Used only to build the black-box prompt-format string. -/
def dumpTop : Option PyJson → String
  | none => "null"
  | some (.obj m) => dumpObjStr m
  | some (.prim v) => String.mk (dumpVal v)

/-! ## Parsing: `json.load` on the same fragment -/

/-- The whitespace characters `json.load` skips between tokens. -/
def isWs (c : Char) : Bool := decide (c = ' ' ∨ c = '\n' ∨ c = '\t' ∨ c = '\r')

def skipWs : List Char → List Char
  | [] => []
  | c :: rest => if isWs c then skipWs rest else c :: rest

def hexVal (c : Char) : Option Nat :=
  if 48 ≤ c.toNat ∧ c.toNat ≤ 57 then some (c.toNat - 48)
  else if 97 ≤ c.toNat ∧ c.toNat ≤ 102 then some (c.toNat - 87)
  else if 65 ≤ c.toNat ∧ c.toNat ≤ 70 then some (c.toNat - 55)
  else none

/-- The two-character string escapes JSON accepts. -/
def simpleUnescape (e : Char) : Option Char :=
  if e = '"' then some '"'
  else if e = '\\' then some '\\'
  else if e = '/' then some '/'
  else if e = 'b' then some (Char.ofNat 8)
  else if e = 'f' then some (Char.ofNat 12)
  else if e = 'n' then some '\n'
  else if e = 'r' then some '\r'
  else if e = 't' then some '\t'
  else none

/-- Body of a JSON string after the opening quote: returns the decoded
characters and the input after the closing quote. -/
def parseStrBody : List Char → Option (List Char × List Char)
  | [] => none
  | c :: rest =>
    if c = '"' then some ([], rest)
    else if c = '\\' then
      match rest with
      | [] => none
      | e :: rest2 =>
        if e = 'u' then
          match rest2 with
          | h1 :: h2 :: h3 :: h4 :: rest3 =>
            match hexVal h1, hexVal h2, hexVal h3, hexVal h4 with
            | some a, some b, some c2, some d =>
              match parseStrBody rest3 with
              | some (s, r) => some (Char.ofNat (((a * 16 + b) * 16 + c2) * 16 + d) :: s, r)
              | none => none
            | _, _, _, _ => none
          | _ => none
        else
          match simpleUnescape e with
          | some ch =>
            match parseStrBody rest2 with
            | some (s, r) => some (ch :: s, r)
            | none => none
          | none => none
    else
      match parseStrBody rest with
      | some (s, r) => some (c :: s, r)
      | none => none

def isDig (c : Char) : Bool := decide (48 ≤ c.toNat ∧ c.toNat ≤ 57)

/-- Consume a run of decimal digits, accumulating their value. -/
def parseDigits (acc : Nat) : List Char → Nat × List Char
  | [] => (acc, [])
  | c :: rest =>
    if isDig c then parseDigits (acc * 10 + (c.toNat - 48)) rest else (acc, c :: rest)

/-- Consume an expected literal character sequence. -/
def dropLit : List Char → List Char → Option (List Char)
  | [], xs => some xs
  | _ :: _, [] => none
  | l :: ls, x :: xs => if x = l then dropLit ls xs else none

/-- Parse one scalar JSON value at the head of the input. -/
def parseValue (xs : List Char) : Option (JVal × List Char) :=
  match xs with
  | [] => none
  | c :: rest =>
    if c = '"' then
      match parseStrBody rest with
      | some (cs, r) => some (JVal.s (String.mk cs), r)
      | none => none
    else if c = 't' then
      match dropLit ['r', 'u', 'e'] rest with
      | some r => some (JVal.b true, r)
      | none => none
    else if c = 'f' then
      match dropLit ['a', 'l', 's', 'e'] rest with
      | some r => some (JVal.b false, r)
      | none => none
    else if c = 'n' then
      match dropLit ['u', 'l', 'l'] rest with
      | some r => some (JVal.null, r)
      | none => none
    else if c = '-' then
      match rest with
      | [] => none
      | d :: _ =>
        if isDig d then
          let p := parseDigits 0 rest
          some (JVal.i (-(p.1 : Int)), p.2)
        else none
    else if isDig c then
      let p := parseDigits 0 (c :: rest)
      some (JVal.i (p.1 : Int), p.2)
    else none

/-- Parse one `"key": value` object member (leading whitespace allowed). -/
def parseMember (xs : List Char) : Option ((String × JVal) × List Char) :=
  match skipWs xs with
  | [] => none
  | c :: rest =>
    if c = '"' then
      match parseStrBody rest with
      | some (k, r1) =>
        match skipWs r1 with
        | [] => none
        | c2 :: r2 =>
          if c2 = ':' then
            match parseValue (skipWs r2) with
            | some (v, r3) => some ((String.mk k, v), r3)
            | none => none
          else none
      | none => none
    else none

/-- Members after the first: `, member`* followed by `}`.  The fuel is an
embedding artifact bounded below by the member count; the caller passes the
remaining input length, which always suffices. -/
def parseMembersLoop : Nat → List (String × JVal) → List Char →
    Option (List (String × JVal) × List Char)
  | 0, _, _ => none
  | fuel + 1, acc, xs =>
    match skipWs xs with
    | [] => none
    | c :: rest =>
      if c = ',' then
        match parseMember rest with
        | some (kv, r) => parseMembersLoop fuel (acc ++ [kv]) r
        | none => none
      else if c = '}' then some (acc, rest)
      else none

/-- Parse a JSON object. -/
def parseObj (xs : List Char) : Option (List (String × JVal) × List Char) :=
  match skipWs xs with
  | [] => none
  | c :: rest =>
    if c = '{' then
      match skipWs rest with
      | [] => none
      | c2 :: r2 =>
        if c2 = '}' then some ([], r2)
        else
          match parseMember rest with
          | some (kv, r) => parseMembersLoop (r.length + 1) [kv] r
          | none => none
    else none

/-- `json.loads` on a whole document over the modelled fragment: one value,
nothing but whitespace around it. -/
def parseJsonText (s : String) : Option PyJson :=
  match skipWs s.data with
  | [] => none
  | c :: rest =>
    if c = '{' then
      match parseObj (c :: rest) with
      | some (m, r) => if skipWs r = [] then some (PyJson.obj m) else none
      | none => none
    else
      match parseValue (c :: rest) with
      | some (v, r) => if skipWs r = [] then some (PyJson.prim v) else none
      | none => none


/-! ## Filesystem model -/

/-- The filesystem state: stored file contents (later writes shadow earlier
ones), plus oracles saying which paths `open(path, "w")` accepts and which
reads fail with an I/O error. -/
structure FS where
  files : List (String × String)
  writable : String → Bool
  readErr : String → Option PyErr

def FS.get? (fs : FS) (p : String) : Option String := fs.files.lookup p

def FS.set (fs : FS) (p v : String) : FS := { fs with files := (p, v) :: fs.files }

/-- `open(path, "r")` followed by reading the whole file. -/
def openRead (fs : FS) (p : String) : Except PyErr String :=
  match fs.readErr p with
  | some e => .error e
  | none =>
    match fs.get? p with
    | some text => .ok text
    | none => .error (.fileNotFound p)

/-- `json.load(file)`: raises `json.JSONDecodeError` on malformed input. -/
def jsonLoads (s : String) : Except PyErr PyJson :=
  match parseJsonText s with
  | some v => .ok v
  | none => .error (.jsonDecodeError s)

/-! ## `json_handler.py` — class JSONHandler -/

/-- `JSONHandler.load_json`: the `try` body opens the file and decodes it;
the three `except` arms (FileNotFoundError, json.JSONDecodeError, Exception)
each log and fall through to `return None`. -/
def load_json (fs : FS) (p : String) : Except PyErr (Option PyJson) :=
  match (match openRead fs p with
         | .ok text => jsonLoads text
         | .error e => Except.error e : Except PyErr PyJson) with
  | .ok v => .ok (some v)
  | .error (.fileNotFound _) => .ok none
  | .error (.jsonDecodeError _) => .ok none
  | .error _ => .ok none

/-- The possible runtime types of `save_json`'s `json_content` argument. -/
inductive PyContent where
  | dict (m : List (String × JVal))
  | str (s : String)
  | other
deriving Repr

/-- The `try` body of `JSONHandler.save_json`, returning the filesystem it
left behind together with the exception it raised, if any.
`open(json_path, "w")` truncates an existing file (or creates the path)
before anything else happens inside the `with` block, so when the body later
raises `ValueError` for an unsupported content type, the truncated (empty)
file is already on disk.  When `open` itself fails nothing was written. -/
def save_json_body (fs : FS) (p : String) (c : PyContent) : FS × Except PyErr Unit :=
  if fs.writable p then
    let fs0 := fs.set p ""
    match c with
    | .str s => (fs0.set p s, .ok ())
    | .dict m => (fs0.set p (dumpObjStr m), .ok ())
    | .other =>
      (fs0, .error (.valueError "Unsupported JSON content type. Use Dict or str."))
  else (fs, .error (.fileNotFound p))

/-- `JSONHandler.save_json`: run the `try` body (open for writing —
truncating the file — then write the string verbatim or `json.dump` the
dict, anything else raising `ValueError`); the `except` arms
(FileNotFoundError, Exception) log the exception and return normally with
whatever state the body left behind. -/
def save_json (fs : FS) (p : String) (c : PyContent) : Except PyErr FS :=
  match save_json_body fs p c with
  | (fs1, .ok _) => .ok fs1
  | (fs1, .error (.fileNotFound _)) => .ok fs1
  | (fs1, .error _) => .ok fs1

/-! ## `file_reader.py` — class FileReader -/

/-- Oracles for the extractor's external collaborators: `os.path.isdir` and
`os.listdir` merged into one possibly-absent directory listing, and the outcome of
opening a file in binary mode and running the docx / pdf decoder on it. -/
structure FileEnv where
  listdir : String → Option (List String)
  readDocx : String → Except PyErr String
  readPdf : String → Except PyErr String

/-- The error text `FileReader._read_file` substitutes for a file's content,
one `except` arm per exception class. -/
def errString : PyErr → String
  | .fileNotFound m => "File not found: " ++ m
  | .permissionError m => "Permission error: " ++ m
  | e => "An error occurred: " ++ e.msg

/-- `FileReader._read_file`: run the reader function on the opened file and
catch every exception, substituting a descriptive error string. -/
def read_file (reader : String → Except PyErr String) (p : String) : String :=
  match reader p with
  | .ok s => s
  | .error e => errString e

/-- Characters of the path component after the last slash. -/
def basenameChars (xs : List Char) : List Char :=
  xs.foldl (fun acc c => if c = '/' then [] else acc ++ [c]) []

/-- Characters strictly before the last dot (empty when there is no dot). -/
def beforeLastDot (name : List Char) : List Char :=
  (((name.reverse.dropWhile (fun c => c != '.')).drop 1)).reverse

/-- Characters after the last dot. -/
def afterLastDot (name : List Char) : List Char :=
  (name.reverse.takeWhile (fun c => c != '.')).reverse

/-- `os.path.splitext(name)[1]`: the extension including its dot, empty when
the name has no dot or only a leading dot.  (The sources only apply this to
bare file names produced by `os.listdir`.) -/
def extOf (name : List Char) : List Char :=
  if name.contains '.' && !(beforeLastDot name).isEmpty then '.' :: afterLastDot name
  else []

/-- Membership of the lower-cased extension in `self._valid_extensions`. -/
def validExtension (fileName : String) : Bool :=
  let e := (extOf fileName.data).map Char.toLower
  e == ".docx".data || e == ".pdf".data

/-- `FileReader._retrieve_file_paths`: skip `None` input and non-directories,
join each directory with each listed name whose extension is recognized. -/
def retrieve_file_paths (listdir : String → Option (List String))
    (dirs : Option (List String)) : List String :=
  match dirs with
  | none => []
  | some ds =>
    (ds.map (fun d =>
      match listdir d with
      | none => []
      | some names => (names.filter validExtension).map (fun n => d ++ "/" ++ n))).flatten

/-- `Path(file_path).stem`: basename without its final extension. -/
def stem (p : String) : String :=
  let b := basenameChars p.data
  if b.contains '.' && !(beforeLastDot b).isEmpty then String.mk (beforeLastDot b)
  else String.mk b

/-- The reader-function dispatch of `read_file_contents`.  Retrieval filters
paths to the recognized extensions, so the dictionary lookup never misses:
`.docx` dispatches to `_read_docx`, the remaining recognized case is
`_read_pdf`. -/
def readDispatch (env : FileEnv) (p : String) : String :=
  if (extOf p.data).map Char.toLower == ".docx".data then read_file env.readDocx p
  else read_file env.readPdf p

/-- `FileReader.read_file_contents`: one entry per retrieved path, mapping it
to the dispatched extraction result. -/
def read_file_contents (env : FileEnv) (dirs : Option (List String)) :
    List (String × String) :=
  (retrieve_file_paths env.listdir dirs).map (fun p => (p, readDispatch env p))

/-! ## `mongo_db.py` — class MongoDB -/

/-- Oracles for the pymongo driver: the outcome of `MongoClient(...)` plus
collection construction given the three configuration values, and of each
collection operation. -/
structure StoreEnv where
  connectRes : Option JVal → Option JVal → Option JVal → Except PyErr Unit
  insertOneRes : PyJson → Except PyErr String
  insertManyRes : List PyJson → Except PyErr (List String)
  deleteOneRes : PyJson → Except PyErr Nat
  deleteManyRes : PyJson → Except PyErr Nat
  findOneRes : PyJson → Except PyErr (Option PyJson)
  findManyRes : PyJson → Except PyErr (List PyJson)

/-- `MongoDB.__enter__`: only `ConnectionFailure` is caught, and it is
re-raised wrapped in a descriptive message; any other exception propagates
unchanged. -/
def mongo_enter (st : StoreEnv) (uri dbName collName : Option JVal) :
    Except PyErr Unit :=
  match st.connectRes uri dbName collName with
  | .ok _ => .ok ()
  | .error (.connectionFailure m) =>
    .error (.connectionFailure ("Failed to connect to MongoDB: " ++ m))
  | .error e => .error e

/-- `MongoDB.insert_document`: a failed insert is wrapped and re-raised. -/
def insert_document (st : StoreEnv) (d : PyJson) : Except PyErr String :=
  match st.insertOneRes d with
  | .ok theId => .ok theId
  | .error e => .error (.exception ("Failed to insert a document into MongoDB: " ++ e.msg))

/-- `MongoDB.insert_documents`: a failed batch insert is wrapped and
re-raised. -/
def insert_documents (st : StoreEnv) (ds : List PyJson) : Except PyErr (List String) :=
  match st.insertManyRes ds with
  | .ok ids => .ok ids
  | .error e => .error (.exception ("Failed to insert documents into MongoDB: " ++ e.msg))

/-- `MongoDB.delete_document`: `WriteError` and any other exception are both
caught and reported as `None`. -/
def delete_document (st : StoreEnv) (q : PyJson) : Except PyErr (Option Nat) :=
  match st.deleteOneRes q with
  | .ok n => .ok (some n)
  | .error (.writeError _) => .ok none
  | .error _ => .ok none

/-- `MongoDB.delete_documents`: same soft-failure policy as
`delete_document`. -/
def delete_documents (st : StoreEnv) (q : PyJson) : Except PyErr (Option Nat) :=
  match st.deleteManyRes q with
  | .ok n => .ok (some n)
  | .error (.writeError _) => .ok none
  | .error _ => .ok none

/-- `MongoDB.find_document`: any exception is caught and reported as
`None`. -/
def find_document (st : StoreEnv) (q : PyJson) : Except PyErr (Option PyJson) :=
  match st.findOneRes q with
  | .ok r => .ok r
  | .error _ => .ok none

/-- `MongoDB.find_documents`: any exception is caught and reported as
`None`. -/
def find_documents (st : StoreEnv) (q : PyJson) : Except PyErr (Option (List PyJson)) :=
  match st.findManyRes q with
  | .ok r => .ok (some r)
  | .error _ => .ok none

/-! ## `resume_parser.py` — class ResumeParser -/

def jsonDirPath : String := "../json/"
def apiKeyPath : String := "../json/configuration/api_key.json"
def parsingFormatPath : String := "../json/configuration/parsing_format.json"
def mongoConfigPath : String := "../json/configuration/mongo_db.json"

/-- `dict.get(k)`: the binding of `k`, `None` when absent (for a dict built
from parsed JSON the last binding of a repeated key wins). -/
def jGet (m : List (String × JVal)) (k : String) : Option JVal :=
  m.reverse.lookup k

/-- `ResumeParser._set_openai_api_key`: the `try` body is
`load_json(...).get("api_key")` — `load_json` itself never raises, but when
it returns `None` (missing or malformed file) the `.get` attribute access
raises `AttributeError`, which the `except FileNotFoundError` clause does not
catch. -/
def set_openai_api_key (fs : FS) : Except PyErr (Option JVal) :=
  match (match load_json fs apiKeyPath with
         | .ok (some (.obj m)) => Except.ok (jGet m "api_key")
         | .ok (some (.prim _)) =>
           Except.error (PyErr.attributeError "object has no attribute get")
         | .ok none =>
           Except.error (PyErr.attributeError "NoneType object has no attribute get")
         | .error e => Except.error e : Except PyErr (Option JVal)) with
  | .ok k => .ok k
  | .error (.fileNotFound m) =>
    .error (.fileNotFound ("Failed to set API key: API key file not found at " ++
      apiKeyPath ++ ". Please provide a valid API key. " ++ m))
  | .error e => .error e

/-- The pipeline's external collaborators: the extractor oracles and the
completion service, which maps (owner, resume text, format text) to the first
choice's message content or an exception. -/
structure PipelineEnv where
  files : FileEnv
  svc : String → String → String → Except PyErr String

/-- Output file for one document: `os.path.join(json_dir, "parsed_resume",
stem + ".json")`. -/
def outPath (p : String) : String := "../json/parsed_resume/" ++ stem p ++ ".json"

/-- The per-document loop of `parse_resumes`: call the completion service,
`json.loads` the response content (appending to `parsed_contents`), then
`save_json` the raw content to the stem-named output file.  An exception from
the service call or from `json.loads` propagates, abandoning the rest of the
batch but keeping the filesystem as already written. -/
def parse_resumes_loop (env : PipelineEnv) (fmt : String) :
    List (String × String) → FS → List PyJson → FS × Except PyErr (List PyJson)
  | [], fs, acc => (fs, .ok acc)
  | (p, content) :: rest, fs, acc =>
    match env.svc (stem p) content fmt with
    | .error e => (fs, .error e)
    | .ok respText =>
      match jsonLoads respText with
      | .error e => (fs, .error e)
      | .ok parsed =>
        match save_json fs (outPath p) (.str respText) with
        | .error e => (fs, .error e)
        | .ok fs1 => parse_resumes_loop env fmt rest fs1 (acc ++ [parsed])

/-- The storage epilogue of `parse_resumes`: load the store configuration and
unconditionally call `.get` on it (so a `None` result raises
`AttributeError`), enter the store connection scope, and batch-insert the
collected records.  An exception from any step propagates (the context
manager's `__exit__` closes the connection and re-raises). -/
def db_stage (fs1 : FS) (st : StoreEnv) (parsed : List PyJson) :
    FS × Except PyErr Unit :=
  match load_json fs1 mongoConfigPath with
  | .error e => (fs1, .error e)
  | .ok none =>
    (fs1, .error (.attributeError "NoneType object has no attribute get"))
  | .ok (some (.prim _)) =>
    (fs1, .error (.attributeError "object has no attribute get"))
  | .ok (some (.obj cfg)) =>
    match mongo_enter st (jGet cfg "uri") (jGet cfg "database_name")
        (jGet cfg "collection_name") with
    | .error e => (fs1, .error e)
    | .ok _ =>
      match insert_documents st parsed with
      | .error e => (fs1, .error e)
      | .ok _ => (fs1, .ok ())

/-- `ResumeParser.parse_resumes`: load the parsing format (`json.dumps` of the
loaded value — `ensure_ascii` differences of this black-box prompt string are
not modelled), read the documents, run the per-document loop, then run the
storage epilogue `db_stage`. -/
def parse_resumes (fs : FS) (env : PipelineEnv) (st : StoreEnv) :
    FS × Except PyErr Unit :=
  match load_json fs parsingFormatPath with
  | .error e => (fs, .error e)
  | .ok fmtJson =>
    let fmt := dumpTop fmtJson
    let entries := read_file_contents env.files (some ["../docx", "../pdf"])
    match parse_resumes_loop env fmt entries fs [] with
    | (fs1, .error e) => (fs1, .error e)
    | (fs1, .ok parsed) => db_stage fs1 st parsed

/-- Constructing a `ResumeParser` (which sets the API key) and then running
`parse_resumes`: an exception during construction propagates before any
document is read, parsed or persisted. -/
def resume_parser_run (fs : FS) (env : PipelineEnv) (st : StoreEnv) :
    FS × Except PyErr Unit :=
  match set_openai_api_key fs with
  | .error e => (fs, .error e)
  | .ok _ => parse_resumes fs env st

/-- The pure result `load_json` computes: the absence sentinel on a missing
or unreadable or malformed file, the decoded value otherwise. -/
def load_json_spec (fs : FS) (p : String) : Option PyJson :=
  match openRead fs p with
  | .error _ => none
  | .ok text => parseJsonText text

/-! ## Concrete fixtures used by witnesses and counterexamples -/

def fsEmpty : FS := ⟨[], fun _ => true, fun _ => none⟩

def fsBadJson : FS := ⟨[("bad.json", "not json")], fun _ => true, fun _ => none⟩

def fsApiKeyEmptyObj : FS :=
  ⟨[("../json/configuration/api_key.json", dumpObjStr [])], fun _ => true, fun _ => none⟩

/-- A dict exercising escapes (quote, backslash, newline, a control
character, a non-ASCII letter), negative and positive integers, booleans and
null. -/
def sampleDict : List (String × JVal) :=
  [("name", JVal.s (String.mk ['J', 'o', '\n', '"', '\\', 'é'])),
   ("bell", JVal.s (String.mk [Char.ofNat 7])),
   ("count", JVal.i (-42)),
   ("year", JVal.i 2024),
   ("ok", JVal.b true),
   ("note", JVal.null)]

/-- Extractor oracles with one docx directory holding the given names. -/
def docxOnly (names : List String) : FileEnv :=
  ⟨fun d => if d = "../docx" then some names else none,
   fun _ => Except.ok "resume text", fun _ => Except.ok "pdf text"⟩

/-- One document; the completion service answers with text that is not
JSON. -/
def envInvalidJson : PipelineEnv :=
  ⟨docxOnly ["a.docx"], fun _ _ _ => Except.ok "not json"⟩

/-- Three documents; the completion service raises on the second one. -/
def envFailSecond : PipelineEnv :=
  ⟨docxOnly ["a.docx", "b.docx", "c.docx"],
   fun owner _ _ =>
     if owner = "b" then Except.error (PyErr.exception "boom")
     else Except.ok (dumpObjStr [])⟩

/-- No input directories exist. -/
def envNoDocs : PipelineEnv :=
  ⟨⟨fun _ => none, fun _ => Except.ok "", fun _ => Except.ok ""⟩,
   fun _ _ _ => Except.ok (dumpObjStr [])⟩

/-- Two docx files, the first unreadable. -/
def fileEnvBadFile : FileEnv :=
  ⟨fun d => if d = "../docx" then some ["bad.docx", "good.docx"] else none,
   fun p =>
     if p = "../docx/bad.docx" then Except.error (PyErr.permissionError "denied")
     else Except.ok "good text",
   fun _ => Except.ok "pdf text"⟩

/-- A document store whose every operation fails. -/
def stAllFail : StoreEnv :=
  ⟨fun _ _ _ => Except.error (PyErr.connectionFailure "down"),
   fun _ => Except.error (PyErr.writeError "boom"),
   fun _ => Except.error (PyErr.writeError "boom"),
   fun _ => Except.error (PyErr.writeError "boom"),
   fun _ => Except.error (PyErr.writeError "boom"),
   fun _ => Except.error (PyErr.writeError "boom"),
   fun _ => Except.error (PyErr.writeError "boom")⟩

/-- A document store whose every operation succeeds. -/
def stAllOk : StoreEnv :=
  ⟨fun _ _ _ => Except.ok (), fun _ => Except.ok "id0",
   fun ds => Except.ok (ds.map fun _ => "id"), fun _ => Except.ok 1, fun _ => Except.ok 1,
   fun _ => Except.ok none, fun _ => Except.ok []⟩

/-! ## Round-trip lemmas for the JSON codec -/

theorem hexVal_hexDigit (n : Nat) (h : n < 16) : hexVal (hexDigit n) = some n := by
  interval_cases n <;> decide

theorem parseStrBody_esc (s : List Char) : ∀ rest : List Char,
    parseStrBody (escString s ++ '"' :: rest) = some (s, rest) := by
  induction s with
  | nil =>
    intro rest
    rw [show escString [] = [] from rfl, List.nil_append, parseStrBody.eq_def]
    simp
  | cons c cs ih =>
    intro rest
    rw [show escString (c :: cs) = escChar c ++ escString cs from rfl, List.append_assoc]
    by_cases hq : c = '"'
    · subst hq
      rw [show escChar '"' = ['\\', '"'] from by decide, List.cons_append, List.cons_append,
        List.nil_append, parseStrBody.eq_def]
      simp [simpleUnescape, ih]
    · by_cases hb : c = '\\'
      · subst hb
        rw [show escChar '\\' = ['\\', '\\'] from by decide, List.cons_append, List.cons_append,
          List.nil_append, parseStrBody.eq_def]
        simp [simpleUnescape, ih]
      · by_cases hn : c = '\n'
        · subst hn
          rw [show escChar '\n' = ['\\', 'n'] from by decide, List.cons_append, List.cons_append,
            List.nil_append, parseStrBody.eq_def]
          simp [simpleUnescape, ih]
        · by_cases ht : c = '\t'
          · subst ht
            rw [show escChar '\t' = ['\\', 't'] from by decide, List.cons_append,
              List.cons_append, List.nil_append, parseStrBody.eq_def]
            simp [simpleUnescape, ih]
          · by_cases hr : c = '\r'
            · subst hr
              rw [show escChar '\r' = ['\\', 'r'] from by decide, List.cons_append,
                List.cons_append, List.nil_append, parseStrBody.eq_def]
              simp [simpleUnescape, ih]
            · by_cases h8 : c = Char.ofNat 8
              · subst h8
                rw [show escChar (Char.ofNat 8) = ['\\', 'b'] from by decide, List.cons_append,
                  List.cons_append, List.nil_append, parseStrBody.eq_def]
                simp [simpleUnescape, ih]
              · by_cases h12 : c = Char.ofNat 12
                · subst h12
                  rw [show escChar (Char.ofNat 12) = ['\\', 'f'] from by decide,
                    List.cons_append, List.cons_append, List.nil_append, parseStrBody.eq_def]
                  simp [simpleUnescape, ih]
                · by_cases hc : c.toNat < 32
                  · have hch : escChar c =
                        ['\\', 'u', '0', '0', hexDigit (c.toNat / 16), hexDigit (c.toNat % 16)] := by
                      simp [escChar, hq, hb, hn, ht, hr, h8, h12, hc]
                    have h3 : c.toNat / 16 < 16 := by omega
                    have h4 : c.toNat % 16 < 16 := by omega
                    have hz : hexVal '0' = some 0 := by decide
                    rw [hch]
                    simp only [List.cons_append, List.nil_append]
                    rw [parseStrBody.eq_def]
                    simp [hz, hexVal_hexDigit _ h3, hexVal_hexDigit _ h4, ih]
                    have harith : c.toNat / 16 * 16 + c.toNat % 16 = c.toNat := by omega
                    rw [harith, Char.ofNat_toNat]
                  · have hch : escChar c = [c] := by
                      simp [escChar, hq, hb, hn, ht, hr, h8, h12, hc]
                    rw [hch, List.cons_append, List.nil_append, parseStrBody.eq_def]
                    simp [hq, hb, ih]

theorem digitChar_toNat (n : Nat) (h : n < 10) : (digitChar n).toNat = 48 + n := by
  interval_cases n <;> decide

theorem isDig_digitChar (n : Nat) (h : n < 10) : isDig (digitChar n) = true := by
  interval_cases n <;> decide

theorem natRepr_head (n : Nat) : ∃ d ds, natRepr n = d :: ds ∧ isDig d = true := by
  induction n using Nat.strong_induction_on with
  | _ n ih =>
    by_cases h : n < 10
    · exact ⟨digitChar n, [], by rw [natRepr.eq_def, if_pos h], isDig_digitChar n h⟩
    · obtain ⟨d, ds, hrepr, hd⟩ := ih (n / 10) (Nat.div_lt_self (by omega) (by omega))
      refine ⟨d, ds ++ [digitChar (n % 10)], ?_, hd⟩
      rw [natRepr.eq_def, if_neg h, hrepr, List.cons_append]

theorem parseDigits_stop (a : Nat) (rest : List Char)
    (h : ∀ c r, rest = c :: r → isDig c = false) : parseDigits a rest = (a, rest) := by
  cases rest with
  | nil => rfl
  | cons c r => rw [parseDigits.eq_def]; simp [h c r rfl]

theorem parseDigits_natRepr (n : Nat) : ∀ acc rest,
    parseDigits acc (natRepr n ++ rest) =
      parseDigits (acc * 10 ^ (natRepr n).length + n) rest := by
  induction n using Nat.strong_induction_on with
  | _ n ih =>
    intro acc rest
    by_cases h : n < 10
    · rw [natRepr.eq_def, if_pos h]
      rw [List.cons_append, List.nil_append, parseDigits.eq_def]
      simp [isDig_digitChar n h, digitChar_toNat n h]
    · have hlt : n / 10 < n := Nat.div_lt_self (by omega) (by omega)
      have h10 : n % 10 < 10 := Nat.mod_lt _ (by omega)
      rw [natRepr.eq_def, if_neg h, List.append_assoc, List.cons_append, List.nil_append,
        ih (n / 10) hlt acc (digitChar (n % 10) :: rest)]
      rw [parseDigits.eq_def]
      simp only [isDig_digitChar _ h10, if_pos, digitChar_toNat _ h10]
      congr 1
      have hsub : 48 + n % 10 - 48 = n % 10 := by omega
      rw [hsub]
      have hlen : (natRepr (n / 10) ++ [digitChar (n % 10)]).length =
          (natRepr (n / 10)).length + 1 := by simp
      rw [hlen, pow_succ]
      calc (acc * 10 ^ (natRepr (n / 10)).length + n / 10) * 10 + n % 10
          = acc * (10 ^ (natRepr (n / 10)).length * 10) + (n / 10 * 10 + n % 10) := by ring
        _ = acc * (10 ^ (natRepr (n / 10)).length * 10) + n := by
            congr 1
            omega

/-- Inputs whose head (if any) is not a decimal digit; a digit run parsed
before such a remainder stops exactly there. -/
def noDigHead (xs : List Char) : Prop := ∀ c r, xs = c :: r → isDig c = false

theorem isDig_ne (c : Char) (h : isDig c = true) :
    c ≠ '"' ∧ c ≠ 't' ∧ c ≠ 'f' ∧ c ≠ 'n' ∧ c ≠ '-' := by
  refine ⟨?_, ?_, ?_, ?_, ?_⟩ <;> intro hEq <;> subst hEq <;> exact absurd h (by decide)

theorem isDig_not_ws (c : Char) (h : isDig c = true) : isWs c = false := by
  cases hw : isWs c
  · rfl
  · exfalso
    simp [isWs] at hw
    rcases hw with h1 | h1 | h1 | h1 <;> subst h1 <;> exact absurd h (by decide)

theorem skipWs_cons_ws (c : Char) (xs : List Char) (h : isWs c = true) :
    skipWs (c :: xs) = skipWs xs := by
  rw [skipWs.eq_def]; simp [h]

theorem skipWs_cons_neg (c : Char) (xs : List Char) (h : isWs c = false) :
    skipWs (c :: xs) = c :: xs := by
  rw [skipWs.eq_def]; simp [h]

theorem parseValue_dump (v : JVal) (rest : List Char) (hrest : noDigHead rest) :
    parseValue (dumpVal v ++ rest) = some (v, rest) := by
  cases v with
  | s str =>
    rw [show dumpVal (JVal.s str) = '"' :: (escString str.data ++ ['"']) from rfl,
      List.cons_append, List.append_assoc, List.cons_append, List.nil_append,
      parseValue.eq_def]
    simp [parseStrBody_esc]
  | i iv =>
    cases iv with
    | ofNat n =>
      obtain ⟨d, ds, hrepr, hd⟩ := natRepr_head n
      obtain ⟨hne1, hne2, hne3, hne4, hne5⟩ := isDig_ne d hd
      rw [show dumpVal (JVal.i (Int.ofNat n)) = natRepr n from rfl, hrepr, List.cons_append,
        parseValue.eq_def]
      simp [hne1, hne2, hne3, hne4, hne5, hd]
      rw [← List.cons_append, ← hrepr, parseDigits_natRepr]
      simp [parseDigits_stop n rest hrest]
    | negSucc n =>
      obtain ⟨d, ds, hrepr, hd⟩ := natRepr_head (n + 1)
      rw [show dumpVal (JVal.i (Int.negSucc n)) = '-' :: natRepr (n + 1) from rfl,
        List.cons_append, parseValue.eq_def]
      rw [hrepr, List.cons_append]
      simp [hd]
      rw [← List.cons_append, ← hrepr, parseDigits_natRepr]
      simp [parseDigits_stop _ rest hrest]
      rw [Int.negSucc_eq]
      ring
  | b bv =>
    cases bv with
    | true =>
      rw [show dumpVal (JVal.b true) = ['t', 'r', 'u', 'e'] from rfl]
      simp only [List.cons_append, List.nil_append]
      rw [parseValue.eq_def]
      simp [dropLit]
    | false =>
      rw [show dumpVal (JVal.b false) = ['f', 'a', 'l', 's', 'e'] from rfl]
      simp only [List.cons_append, List.nil_append]
      rw [parseValue.eq_def]
      simp [dropLit]
  | null =>
    rw [show dumpVal JVal.null = ['n', 'u', 'l', 'l'] from rfl]
    simp only [List.cons_append, List.nil_append]
    rw [parseValue.eq_def]
    simp [dropLit]

theorem skipWs_dumpVal (v : JVal) (tl : List Char) :
    skipWs (dumpVal v ++ tl) = dumpVal v ++ tl := by
  cases v with
  | s str =>
    rw [show dumpVal (JVal.s str) = '"' :: (escString str.data ++ ['"']) from rfl,
      List.cons_append, skipWs_cons_neg _ _ (by decide)]
  | i iv =>
    cases iv with
    | ofNat n =>
      obtain ⟨d, ds, hrepr, hd⟩ := natRepr_head n
      rw [show dumpVal (JVal.i (Int.ofNat n)) = natRepr n from rfl, hrepr, List.cons_append,
        skipWs_cons_neg _ _ (isDig_not_ws d hd)]
    | negSucc n =>
      rw [show dumpVal (JVal.i (Int.negSucc n)) = '-' :: natRepr (n + 1) from rfl,
        List.cons_append, skipWs_cons_neg _ _ (by decide)]
  | b bv =>
    cases bv with
    | true =>
      rw [show dumpVal (JVal.b true) = ['t', 'r', 'u', 'e'] from rfl, List.cons_append,
        skipWs_cons_neg _ _ (by decide)]
    | false =>
      rw [show dumpVal (JVal.b false) = ['f', 'a', 'l', 's', 'e'] from rfl, List.cons_append,
        skipWs_cons_neg _ _ (by decide)]
  | null =>
    rw [show dumpVal JVal.null = ['n', 'u', 'l', 'l'] from rfl, List.cons_append,
      skipWs_cons_neg _ _ (by decide)]

theorem parseMember_dump (k : String) (v : JVal) (rest : List Char) (hrest : noDigHead rest) :
    parseMember (dumpEntry (k, v) ++ rest) = some ((k, v), rest) := by
  rw [show dumpEntry (k, v) =
      [' ', ' ', ' ', ' ', '"'] ++ escString k.data ++ ['"', ':', ' '] ++ dumpVal v from rfl]
  simp only [List.append_assoc, List.cons_append, List.nil_append]
  rw [parseMember.eq_def]
  rw [skipWs_cons_ws _ _ (by decide), skipWs_cons_ws _ _ (by decide),
    skipWs_cons_ws _ _ (by decide), skipWs_cons_ws _ _ (by decide),
    skipWs_cons_neg _ _ (by decide)]
  show (match parseStrBody (escString k.data ++ '"' :: ':' :: ' ' :: (dumpVal v ++ rest)) with
    | some (k1, r1) =>
      match skipWs r1 with
      | [] => none
      | c2 :: r2 =>
        if c2 = ':' then
          match parseValue (skipWs r2) with
          | some (v1, r3) => some ((String.mk k1, v1), r3)
          | none => none
        else none
    | none => none) = some ((k, v), rest)
  rw [parseStrBody_esc]
  show (match skipWs (':' :: ' ' :: (dumpVal v ++ rest)) with
    | [] => none
    | c2 :: r2 =>
      if c2 = ':' then
        match parseValue (skipWs r2) with
        | some (v1, r3) => some ((String.mk k.data, v1), r3)
        | none => none
      else none) = some ((k, v), rest)
  rw [skipWs_cons_neg _ _ (by decide)]
  show (match parseValue (skipWs (' ' :: (dumpVal v ++ rest))) with
    | some (v1, r3) => some ((String.mk k.data, v1), r3)
    | none => none) = some ((k, v), rest)
  rw [skipWs_cons_ws _ _ (by decide), skipWs_dumpVal, parseValue_dump v rest hrest]

theorem parseMember_cons_ws (c : Char) (xs : List Char) (h : isWs c = true) :
    parseMember (c :: xs) = parseMember xs := by
  rw [parseMember.eq_def, skipWs_cons_ws _ _ h, ← parseMember.eq_def]

theorem noDigHead_dumpTail (es : List (String × JVal)) (tl : List Char) :
    noDigHead (dumpTail es ++ '\n' :: tl) := by
  cases es with
  | nil =>
    intro c r h
    rw [show dumpTail [] = [] from rfl, List.nil_append] at h
    cases h
    decide
  | cons e es =>
    intro c r h
    rw [show dumpTail (e :: es) = ',' :: '\n' :: (dumpEntry e ++ dumpTail es) from rfl,
      List.cons_append] at h
    cases h
    decide

theorem dumpTail_length (es : List (String × JVal)) : es.length ≤ (dumpTail es).length := by
  induction es with
  | nil => simp [dumpTail]
  | cons e es ih =>
    rw [show dumpTail (e :: es) = ',' :: '\n' :: (dumpEntry e ++ dumpTail es) from rfl]
    simp only [List.length_cons, List.length_append]
    omega

theorem parseMembersLoop_dump (es : List (String × JVal)) : ∀ fuel acc rest,
    es.length + 1 ≤ fuel →
    parseMembersLoop fuel acc (dumpTail es ++ '\n' :: '}' :: rest) = some (acc ++ es, rest) := by
  induction es with
  | nil =>
    intro fuel acc rest hf
    cases fuel with
    | zero => omega
    | succ f =>
      rw [show dumpTail [] = [] from rfl, List.nil_append, parseMembersLoop]
      rw [skipWs_cons_ws _ _ (by decide), skipWs_cons_neg _ _ (by decide)]
      simp
  | cons e es ih =>
    intro fuel acc rest hf
    cases fuel with
    | zero => simp at hf
    | succ f =>
      rw [show dumpTail (e :: es) = ',' :: '\n' :: (dumpEntry e ++ dumpTail es) from rfl]
      simp only [List.cons_append, List.append_assoc]
      rw [parseMembersLoop]
      rw [skipWs_cons_neg _ _ (by decide)]
      obtain ⟨k, v⟩ := e
      show (match parseMember ('\n' :: (dumpEntry (k, v) ++ (dumpTail es ++ '\n' :: '}' :: rest))) with
        | some (kv, r) => parseMembersLoop f (acc ++ [kv]) r
        | none => none) = some (acc ++ (k, v) :: es, rest)
      rw [parseMember_cons_ws _ _ (by decide),
        parseMember_dump k v _ (noDigHead_dumpTail es ('}' :: rest))]
      show parseMembersLoop f (acc ++ [(k, v)]) (dumpTail es ++ '\n' :: '}' :: rest) =
        some (acc ++ (k, v) :: es, rest)
      rw [ih f (acc ++ [(k, v)]) rest (by simp at hf ⊢; omega)]
      simp

theorem dumpObj_head (m : List (String × JVal)) : ∃ tl, dumpObj m = '{' :: tl := by
  cases m with
  | nil => exact ⟨_, rfl⟩
  | cons e es => exact ⟨_, rfl⟩

theorem parseObj_dump (m : List (String × JVal)) (rest : List Char) :
    parseObj (dumpObj m ++ rest) = some (m, rest) := by
  cases m with
  | nil =>
    rw [show dumpObj [] = ['{', '}'] from rfl]
    simp only [List.cons_append, List.nil_append]
    rw [parseObj.eq_def]
    rw [skipWs_cons_neg _ _ (by decide)]
    simp only [reduceIte]
    rw [skipWs_cons_neg _ _ (by decide)]
    simp
  | cons e es =>
    rw [show dumpObj (e :: es) = '{' :: '\n' :: (dumpEntry e ++ dumpTail es ++ ['\n', '}'])
      from rfl]
    simp only [List.cons_append, List.append_assoc, List.nil_append]
    rw [parseObj.eq_def]
    rw [skipWs_cons_neg _ _ (by decide)]
    simp only [reduceIte]
    obtain ⟨k, v⟩ := e
    have hskip : skipWs ('\n' :: (dumpEntry (k, v) ++ (dumpTail es ++ '\n' :: '}' :: rest))) =
        '"' :: (escString k.data ++ ('"' :: ':' :: ' ' :: (dumpVal v ++
          (dumpTail es ++ '\n' :: '}' :: rest)))) := by
      rw [show dumpEntry (k, v) =
        [' ', ' ', ' ', ' ', '"'] ++ escString k.data ++ ['"', ':', ' '] ++ dumpVal v from rfl]
      simp only [List.append_assoc, List.cons_append, List.nil_append]
      rw [skipWs_cons_ws _ _ (by decide), skipWs_cons_ws _ _ (by decide),
        skipWs_cons_ws _ _ (by decide), skipWs_cons_ws _ _ (by decide),
        skipWs_cons_ws _ _ (by decide), skipWs_cons_neg _ _ (by decide)]
    rw [hskip]
    show (match parseMember ('\n' :: (dumpEntry (k, v) ++ (dumpTail es ++ '\n' :: '}' :: rest))) with
      | some (kv, r) => parseMembersLoop (r.length + 1) [kv] r
      | none => none) = some ((k, v) :: es, rest)
    rw [parseMember_cons_ws _ _ (by decide),
      parseMember_dump k v _ (noDigHead_dumpTail es ('}' :: rest))]
    show parseMembersLoop ((dumpTail es ++ '\n' :: '}' :: rest).length + 1) [(k, v)]
      (dumpTail es ++ '\n' :: '}' :: rest) = some ((k, v) :: es, rest)
    rw [parseMembersLoop_dump es _ [(k, v)] rest (by
      have := dumpTail_length es
      simp only [List.length_append, List.length_cons]
      omega)]
    simp

theorem parseJsonText_dumpObj (m : List (String × JVal)) :
    parseJsonText (dumpObjStr m) = some (PyJson.obj m) := by
  obtain ⟨tl, htl⟩ := dumpObj_head m
  rw [parseJsonText.eq_def, show (dumpObjStr m).data = dumpObj m from rfl, htl,
    skipWs_cons_neg _ _ (by decide)]
  simp only [reduceIte]
  rw [← htl, show dumpObj m = dumpObj m ++ [] from (List.append_nil _).symm, parseObj_dump]
  simp [skipWs]

theorem jsonLoads_dumpObjStr (m : List (String × JVal)) :
    jsonLoads (dumpObjStr m) = .ok (PyJson.obj m) := by
  rw [jsonLoads, parseJsonText_dumpObj]

/-! ## Lemmas about the structured-data codec and the filesystem -/

theorem load_json_ok (fs : FS) (p : String) :
    load_json fs p = Except.ok (load_json_spec fs p) := by
  unfold load_json load_json_spec
  cases h : openRead fs p with
  | error e => cases e <;> simp [h]
  | ok text => cases hp : parseJsonText text <;> simp [h, hp, jsonLoads]

theorem save_json_str (fs : FS) (p s : String) (h : fs.writable p = true) :
    save_json fs p (.str s) = Except.ok ((fs.set p "").set p s) := by
  unfold save_json save_json_body
  simp [h]

theorem save_json_dict (fs : FS) (p : String) (m : List (String × JVal))
    (h : fs.writable p = true) :
    save_json fs p (.dict m) = Except.ok ((fs.set p "").set p (dumpObjStr m)) := by
  unfold save_json save_json_body
  simp [h]

theorem save_json_other_writable (fs : FS) (p : String) (h : fs.writable p = true) :
    save_json fs p PyContent.other = Except.ok (fs.set p "") := by
  unfold save_json save_json_body
  simp [h]

theorem save_json_not_writable (fs : FS) (p : String) (c : PyContent)
    (h : fs.writable p = false) :
    save_json fs p c = Except.ok fs := by
  unfold save_json save_json_body
  simp [h]

theorem FS.get?_set_self (fs : FS) (p v : String) : (fs.set p v).get? p = some v := by
  simp [FS.get?, FS.set, List.lookup]

theorem FS.get?_set_ne (fs : FS) (p q v : String) (h : q ≠ p) :
    (fs.set p v).get? q = fs.get? q := by
  have hb : (q == p) = false := beq_eq_false_iff_ne.mpr h
  simp [FS.get?, FS.set, List.lookup, hb]

theorem FS.writable_set (fs : FS) (p v : String) : (fs.set p v).writable = fs.writable := rfl

theorem FS.readErr_set (fs : FS) (p v : String) : (fs.set p v).readErr = fs.readErr := rfl

/-- C7: For every path, `load_json` returns either the decoded value or the
absence sentinel `None`, and never raises: a missing file, malformed JSON
syntax, and any other I/O error each yield `None`. -/
theorem c7_load_json_never_raises (fs : FS) (p : String) :
    load_json fs p = Except.ok (load_json_spec fs p) ∧
    (fs.readErr p = none → fs.get? p = none → load_json fs p = Except.ok none) ∧
    (∀ e, fs.readErr p = some e → load_json fs p = Except.ok none) ∧
    (∀ text, fs.readErr p = none → fs.get? p = some text → parseJsonText text = none →
      load_json fs p = Except.ok none) := by
  refine ⟨load_json_ok fs p, ?_, ?_, ?_⟩
  · intro h1 h2
    rw [load_json_ok]
    unfold load_json_spec openRead
    rw [h1, h2]
  · intro e h1
    rw [load_json_ok]
    unfold load_json_spec openRead
    rw [h1]
  · intro text h1 h2 h3
    rw [load_json_ok]
    unfold load_json_spec openRead
    rw [h1, h2]
    show Except.ok (parseJsonText text) = Except.ok none
    rw [h3]

theorem c7_witness :
    load_json fsEmpty "missing.json" = Except.ok none ∧
    load_json fsBadJson "bad.json" = Except.ok none := by
  constructor
  · exact (c7_load_json_never_raises fsEmpty "missing.json").2.1 rfl rfl
  · exact (c7_load_json_never_raises fsBadJson "bad.json").2.2.2 "not json" rfl rfl (by decide)

/-- C10: `save_json` is total with respect to exceptions: for every path and
every content argument no exception escapes to the caller; in particular the
`ValueError` raised internally for an unsupported content type is caught by
the function's own generic `except Exception` handler and only logged (the
file, which `open(..., "w")` had already truncated or created by that point,
is left empty; when the path cannot even be opened, nothing was written). -/
theorem c10_save_json_total (fs : FS) (p : String) (c : PyContent) :
    (∃ fs1, save_json fs p c = Except.ok fs1) ∧
    (fs.writable p = true →
      save_json fs p PyContent.other = Except.ok (fs.set p "")) ∧
    (fs.writable p = false → save_json fs p PyContent.other = Except.ok fs) := by
  refine ⟨?_, fun h => save_json_other_writable fs p h,
    fun h => save_json_not_writable fs p _ h⟩
  by_cases h : fs.writable p = true
  · cases c with
    | str s => exact ⟨_, save_json_str fs p s h⟩
    | dict m => exact ⟨_, save_json_dict fs p m h⟩
    | other => exact ⟨_, save_json_other_writable fs p h⟩
  · refine ⟨fs, save_json_not_writable fs p c ?_⟩
    simpa using h

theorem c10_witness :
    save_json fsEmpty "out.json" PyContent.other = Except.ok (fsEmpty.set "out.json" "") :=
  (c10_save_json_total fsEmpty "out.json" PyContent.other).2.1 rfl

/-- C8: saving a JSON-representable mapping and loading it back from the same
path round-trips it exactly — key order, strings (including characters that
need escaping), integers, booleans and null are all preserved. -/
theorem c8_save_load_roundtrip (fs : FS) (p : String) (m : List (String × JVal))
    (hw : fs.writable p = true) (hr : fs.readErr p = none) :
    ∃ fs1, save_json fs p (PyContent.dict m) = Except.ok fs1 ∧
      load_json fs1 p = Except.ok (some (PyJson.obj m)) := by
  refine ⟨(fs.set p "").set p (dumpObjStr m), save_json_dict fs p m hw, ?_⟩
  rw [load_json_ok]
  unfold load_json_spec openRead
  rw [show ((fs.set p "").set p (dumpObjStr m)).readErr = fs.readErr from rfl, hr,
    FS.get?_set_self]
  show Except.ok (parseJsonText (dumpObjStr m)) = Except.ok (some (PyJson.obj m))
  rw [parseJsonText_dumpObj]

theorem c8_witness :
    fsEmpty.writable "out.json" = true ∧ fsEmpty.readErr "out.json" = none ∧
    ∃ fs1, save_json fsEmpty "out.json" (PyContent.dict sampleDict) = Except.ok fs1 ∧
      load_json fs1 "out.json" = Except.ok (some (PyJson.obj sampleDict)) :=
  ⟨rfl, rfl, c8_save_load_roundtrip fsEmpty "out.json" sampleDict rfl rfl⟩

/-! ## Claims about the document-store adapter (`mongo_db.py`) -/

/-- C3 as stated is false: `insert_documents` re-raises a failed batch
insert instead of reporting absence/zero.  Concrete refutation at a store
whose `insert_many` fails. -/
theorem c3_counterexample :
    insert_documents stAllFail [PyJson.obj []] =
      Except.error (PyErr.exception "Failed to insert documents into MongoDB: boom") := rfl

/-- C3 (amended): connection failure at entry propagates with a descriptive
message; a failure of any delete or find operation is caught and reported as
the absence sentinel `None` — these four operations never raise; but insert
failures (single and batch) are wrapped and re-raised. -/
theorem c3_store_error_policy (st : StoreEnv) (q d : PyJson) (ds : List PyJson) :
    (∀ e, st.deleteOneRes q = Except.error e → delete_document st q = Except.ok none) ∧
    (∀ e, st.deleteManyRes q = Except.error e → delete_documents st q = Except.ok none) ∧
    (∀ e, st.findOneRes q = Except.error e → find_document st q = Except.ok none) ∧
    (∀ e, st.findManyRes q = Except.error e → find_documents st q = Except.ok none) ∧
    (∃ r, delete_document st q = Except.ok r) ∧
    (∃ r, delete_documents st q = Except.ok r) ∧
    (∃ r, find_document st q = Except.ok r) ∧
    (∃ r, find_documents st q = Except.ok r) ∧
    (∀ e, st.insertOneRes d = Except.error e →
      insert_document st d =
        Except.error (PyErr.exception ("Failed to insert a document into MongoDB: " ++ e.msg))) ∧
    (∀ e, st.insertManyRes ds = Except.error e →
      insert_documents st ds =
        Except.error (PyErr.exception ("Failed to insert documents into MongoDB: " ++ e.msg))) ∧
    (∀ uri dbn coll m, st.connectRes uri dbn coll = Except.error (PyErr.connectionFailure m) →
      mongo_enter st uri dbn coll =
        Except.error (PyErr.connectionFailure ("Failed to connect to MongoDB: " ++ m))) := by
  refine ⟨?_, ?_, ?_, ?_, ?_, ?_, ?_, ?_, ?_, ?_, ?_⟩
  · intro e h
    unfold delete_document
    cases e <;> rw [h]
  · intro e h
    unfold delete_documents
    cases e <;> rw [h]
  · intro e h
    unfold find_document
    rw [h]
  · intro e h
    unfold find_documents
    rw [h]
  · unfold delete_document
    cases h : st.deleteOneRes q with
    | ok n => exact ⟨some n, rfl⟩
    | error e => cases e <;> exact ⟨none, rfl⟩
  · unfold delete_documents
    cases h : st.deleteManyRes q with
    | ok n => exact ⟨some n, rfl⟩
    | error e => cases e <;> exact ⟨none, rfl⟩
  · unfold find_document
    cases h : st.findOneRes q with
    | ok r => exact ⟨r, rfl⟩
    | error e => exact ⟨none, rfl⟩
  · unfold find_documents
    cases h : st.findManyRes q with
    | ok r => exact ⟨some r, rfl⟩
    | error e => exact ⟨none, rfl⟩
  · intro e h
    unfold insert_document
    rw [h]
  · intro e h
    unfold insert_documents
    rw [h]
  · intro uri dbn coll m h
    unfold mongo_enter
    rw [h]

theorem c3_witness :
    delete_document stAllFail (PyJson.obj []) = Except.ok none ∧
    delete_documents stAllFail (PyJson.obj []) = Except.ok none ∧
    find_document stAllFail (PyJson.obj []) = Except.ok none ∧
    find_documents stAllFail (PyJson.obj []) = Except.ok none ∧
    insert_document stAllFail (PyJson.obj []) =
      Except.error (PyErr.exception
        ("Failed to insert a document into MongoDB: " ++ (PyErr.writeError "boom").msg)) ∧
    mongo_enter stAllFail none none none =
      Except.error (PyErr.connectionFailure ("Failed to connect to MongoDB: " ++ "down")) :=
  ⟨(c3_store_error_policy stAllFail (PyJson.obj []) (PyJson.obj [])
     [PyJson.obj []]).1 (PyErr.writeError "boom") rfl,
   (c3_store_error_policy stAllFail (PyJson.obj []) (PyJson.obj [])
     [PyJson.obj []]).2.1 (PyErr.writeError "boom") rfl,
   (c3_store_error_policy stAllFail (PyJson.obj []) (PyJson.obj [])
     [PyJson.obj []]).2.2.1 (PyErr.writeError "boom") rfl,
   (c3_store_error_policy stAllFail (PyJson.obj []) (PyJson.obj [])
     [PyJson.obj []]).2.2.2.1 (PyErr.writeError "boom") rfl,
   (c3_store_error_policy stAllFail (PyJson.obj []) (PyJson.obj [])
     [PyJson.obj []]).2.2.2.2.2.2.2.2.1 (PyErr.writeError "boom") rfl,
   (c3_store_error_policy stAllFail (PyJson.obj []) (PyJson.obj [])
     [PyJson.obj []]).2.2.2.2.2.2.2.2.2.2 none none none "down" rfl⟩

/-! ## Claims about the document extractor (`file_reader.py`) -/

theorem append_ne_empty_left (a b : String) (h : a.data ≠ []) : a ++ b ≠ "" := by
  intro he
  apply h
  have hd := congrArg String.data he
  rw [String.data_append] at hd
  exact (List.append_eq_nil.mp hd).1

theorem errString_ne_empty (e : PyErr) : errString e ≠ "" := by
  cases e <;> exact append_ne_empty_left _ _ (by decide)

theorem lookup_map_self {β : Type} (f : String → β) :
    ∀ (xs : List String) (p : String), p ∈ xs →
      (xs.map (fun x => (x, f x))).lookup p = some (f p) := by
  intro xs
  induction xs with
  | nil => intro p hp; cases hp
  | cons x xs ih =>
    intro p hp
    by_cases he : p = x
    · subst he
      simp [List.lookup]
    · have hb : (p == x) = false := beq_eq_false_iff_ne.mpr he
      rcases List.mem_cons.mp hp with he2 | hp2
      · exact absurd he2 he
      · rw [List.map_cons]
        show List.lookup p ((x, f x) :: List.map (fun x => (x, f x)) xs) = some (f p)
        rw [List.lookup, hb]
        exact ih p hp2

/-- C4: for every retrieved file whose extraction raises, `read_file_contents`
catches the error, maps the file's path to a non-empty human-readable error
string, does not raise to the caller (it is a total function), and leaves
every other file's entry unchanged. -/
theorem c4_extraction_error_isolated (env : FileEnv) (dirs : Option (List String))
    (p : String) (e : PyErr)
    (hp : p ∈ retrieve_file_paths env.listdir dirs)
    (herr : (if (extOf p.data).map Char.toLower == ".docx".data then env.readDocx p
             else env.readPdf p) = Except.error e) :
    (read_file_contents env dirs).lookup p = some (errString e) ∧
    errString e ≠ "" ∧
    (∀ env2 : FileEnv, env2.listdir = env.listdir →
      (∀ q, q ≠ p → env2.readDocx q = env.readDocx q ∧ env2.readPdf q = env.readPdf q) →
      ∀ q, q ∈ retrieve_file_paths env.listdir dirs → q ≠ p →
        (read_file_contents env2 dirs).lookup q = (read_file_contents env dirs).lookup q) := by
  refine ⟨?_, errString_ne_empty e, ?_⟩
  · unfold read_file_contents
    rw [lookup_map_self (readDispatch env) _ p hp]
    unfold readDispatch read_file
    by_cases hext : ((extOf p.data).map Char.toLower == ".docx".data) = true
    · rw [if_pos hext] at herr ⊢
      rw [herr]
    · rw [if_neg hext] at herr ⊢
      rw [herr]
  · intro env2 hl hagree q hq hne
    unfold read_file_contents
    rw [hl, lookup_map_self (readDispatch env2) _ q hq, lookup_map_self (readDispatch env) _ q hq]
    unfold readDispatch read_file
    obtain ⟨hdocx, hpdf⟩ := hagree q hne
    rw [hdocx, hpdf]

theorem c4_witness :
    (read_file_contents fileEnvBadFile (some ["../docx", "../pdf"])).lookup "../docx/bad.docx" =
      some (errString (PyErr.permissionError "denied")) ∧
    errString (PyErr.permissionError "denied") ≠ "" ∧
    (∀ env2 : FileEnv, env2.listdir = fileEnvBadFile.listdir →
      (∀ q, q ≠ "../docx/bad.docx" →
        env2.readDocx q = fileEnvBadFile.readDocx q ∧
        env2.readPdf q = fileEnvBadFile.readPdf q) →
      ∀ q, q ∈ retrieve_file_paths fileEnvBadFile.listdir (some ["../docx", "../pdf"]) →
        q ≠ "../docx/bad.docx" →
        (read_file_contents env2 (some ["../docx", "../pdf"])).lookup q =
          (read_file_contents fileEnvBadFile (some ["../docx", "../pdf"])).lookup q) :=
  c4_extraction_error_isolated fileEnvBadFile (some ["../docx", "../pdf"])
    "../docx/bad.docx" (PyErr.permissionError "denied") (by decide) rfl

/-! ## Lemmas about the pipeline (`resume_parser.py`) -/

theorem set_openai_api_key_none (fs : FS) (h : load_json_spec fs apiKeyPath = none) :
    set_openai_api_key fs =
      Except.error (PyErr.attributeError "NoneType object has no attribute get") := by
  unfold set_openai_api_key
  rw [load_json_ok, h]

theorem set_openai_api_key_obj (fs : FS) (m : List (String × JVal))
    (h : load_json_spec fs apiKeyPath = some (PyJson.obj m)) :
    set_openai_api_key fs = Except.ok (jGet m "api_key") := by
  unfold set_openai_api_key
  rw [load_json_ok, h]

theorem parse_resumes_loop_cons_ok (env : PipelineEnv) (fmt p c : String)
    (rest : List (String × String)) (fs : FS) (acc : List PyJson) (t : String) (v : PyJson)
    (hsvc : env.svc (stem p) c fmt = Except.ok t) (hjson : jsonLoads t = Except.ok v)
    (hwr : fs.writable (outPath p) = true) :
    parse_resumes_loop env fmt ((p, c) :: rest) fs acc =
      parse_resumes_loop env fmt rest ((fs.set (outPath p) "").set (outPath p) t)
        (acc ++ [v]) := by
  rw [parse_resumes_loop, hsvc]
  show (match jsonLoads t with
    | .error e => (fs, Except.error e)
    | .ok parsed =>
      match save_json fs (outPath p) (PyContent.str t) with
      | .error e => (fs, Except.error e)
      | .ok fs1 => parse_resumes_loop env fmt rest fs1 (acc ++ [parsed])) =
    parse_resumes_loop env fmt rest ((fs.set (outPath p) "").set (outPath p) t) (acc ++ [v])
  rw [hjson]
  show (match save_json fs (outPath p) (PyContent.str t) with
    | .error e => (fs, Except.error e)
    | .ok fs1 => parse_resumes_loop env fmt rest fs1 (acc ++ [v])) =
    parse_resumes_loop env fmt rest ((fs.set (outPath p) "").set (outPath p) t) (acc ++ [v])
  rw [save_json_str fs (outPath p) t hwr]

theorem parse_resumes_loop_cons_svcfail (env : PipelineEnv) (fmt p c : String)
    (rest : List (String × String)) (fs : FS) (acc : List PyJson) (e : PyErr)
    (hsvc : env.svc (stem p) c fmt = Except.error e) :
    parse_resumes_loop env fmt ((p, c) :: rest) fs acc = (fs, Except.error e) := by
  rw [parse_resumes_loop, hsvc]

theorem parse_resumes_loop_cons_jsonfail (env : PipelineEnv) (fmt p c : String)
    (rest : List (String × String)) (fs : FS) (acc : List PyJson) (t : String) (e : PyErr)
    (hsvc : env.svc (stem p) c fmt = Except.ok t) (hjson : jsonLoads t = Except.error e) :
    parse_resumes_loop env fmt ((p, c) :: rest) fs acc = (fs, Except.error e) := by
  rw [parse_resumes_loop, hsvc]
  show (match jsonLoads t with
    | .error e => (fs, Except.error e)
    | .ok parsed =>
      match save_json fs (outPath p) (PyContent.str t) with
      | .error e => (fs, Except.error e)
      | .ok fs1 => parse_resumes_loop env fmt rest fs1 (acc ++ [parsed])) =
    (fs, Except.error e)
  rw [hjson]

/-- The per-document loop under all-success hypotheses: it succeeds, keeps
the writability oracle, touches no path outside the documents' output paths,
and (when those output paths are distinct) leaves each document's raw
response text in its output file. -/
theorem parse_resumes_loop_writes (env : PipelineEnv) (fmt : String) :
    ∀ (entries : List (String × String)) (fs : FS) (acc : List PyJson),
    (∀ q, fs.writable q = true) →
    (∀ pc ∈ entries, ∃ t v, env.svc (stem pc.1) pc.2 fmt = Except.ok t ∧
      jsonLoads t = Except.ok v) →
    ∃ fs1 parsed, parse_resumes_loop env fmt entries fs acc = (fs1, Except.ok parsed) ∧
      (∀ q, fs1.writable q = true) ∧
      (∀ q, q ∉ entries.map (fun pc => outPath pc.1) → fs1.get? q = fs.get? q) ∧
      ((entries.map (fun pc => outPath pc.1)).Nodup →
        ∀ pc ∈ entries, ∀ t, env.svc (stem pc.1) pc.2 fmt = Except.ok t →
          fs1.get? (outPath pc.1) = some t) := by
  intro entries
  induction entries with
  | nil =>
    intro fs acc hwr _
    refine ⟨fs, acc, rfl, hwr, fun q _ => rfl, ?_⟩
    intro _ pc hpc
    exact absurd hpc (List.not_mem_nil pc)
  | cons pc0 rest ih =>
    intro fs acc hwr hok
    obtain ⟨p, c⟩ := pc0
    obtain ⟨t, v, hsvc, hjson⟩ := hok (p, c) (List.mem_cons_self _ _)
    have hstep := parse_resumes_loop_cons_ok env fmt p c rest fs acc t v hsvc hjson (hwr _)
    have hwr2 : ∀ q, ((fs.set (outPath p) "").set (outPath p) t).writable q = true :=
      fun q => hwr q
    have hok2 : ∀ pc ∈ rest, ∃ t v, env.svc (stem pc.1) pc.2 fmt = Except.ok t ∧
        jsonLoads t = Except.ok v := fun pc hpc => hok pc (List.mem_cons_of_mem _ hpc)
    obtain ⟨fs1, parsed, hloop, hwr1, hframe, hwrites⟩ :=
      ih ((fs.set (outPath p) "").set (outPath p) t) (acc ++ [v]) hwr2 hok2
    refine ⟨fs1, parsed, by rw [hstep, hloop], hwr1, ?_, ?_⟩
    · intro q hq
      rw [List.map_cons] at hq
      have hq1 : q ≠ outPath p := fun he => hq (he ▸ List.mem_cons_self _ _)
      have hq2 : q ∉ rest.map (fun pc => outPath pc.1) :=
        fun hm => hq (List.mem_cons_of_mem _ hm)
      rw [hframe q hq2, FS.get?_set_ne (fs.set (outPath p) "") _ q t hq1,
        FS.get?_set_ne fs _ q "" hq1]
    · intro hnodup pc hpc t2 ht2
      rw [List.map_cons] at hnodup
      have hnd1 : outPath p ∉ rest.map (fun pc => outPath pc.1) :=
        (List.nodup_cons.mp hnodup).1
      have hnd2 : (rest.map (fun pc => outPath pc.1)).Nodup := (List.nodup_cons.mp hnodup).2
      rcases List.mem_cons.mp hpc with he | hm
      · subst he
        have ht : t2 = t := Except.ok.inj (ht2.symm.trans hsvc)
        subst ht
        show fs1.get? (outPath p) = some t2
        rw [hframe (outPath p) hnd1, FS.get?_set_self]
      · exact hwrites hnd2 pc hm t2 ht2

/-- The per-document loop when the completion call (or the `json.loads` of
its response) fails at document `(pk, ck)`: the loop aborts with exactly that
error, the documents before the failure keep their written output files, and
no other path is touched. -/
theorem parse_resumes_loop_aborts (env : PipelineEnv) (fmt : String)
    (pk ck : String) (post : List (String × String)) (ek : PyErr)
    (hfail : env.svc (stem pk) ck fmt = Except.error ek ∨
      (∃ t, env.svc (stem pk) ck fmt = Except.ok t ∧ jsonLoads t = Except.error ek)) :
    ∀ (pre : List (String × String)) (fs : FS) (acc : List PyJson),
    (∀ q, fs.writable q = true) →
    (∀ pc ∈ pre, ∃ t v, env.svc (stem pc.1) pc.2 fmt = Except.ok t ∧
      jsonLoads t = Except.ok v) →
    ((pre.map (fun pc => outPath pc.1)).Nodup) →
    ∃ fs1, parse_resumes_loop env fmt (pre ++ (pk, ck) :: post) fs acc =
        (fs1, Except.error ek) ∧
      (∀ pc ∈ pre, ∀ t, env.svc (stem pc.1) pc.2 fmt = Except.ok t →
        fs1.get? (outPath pc.1) = some t) ∧
      (∀ q, q ∉ pre.map (fun pc => outPath pc.1) → fs1.get? q = fs.get? q) := by
  intro pre
  induction pre with
  | nil =>
    intro fs acc _ _ _
    rw [List.nil_append]
    rcases hfail with he | ⟨t, hsvc, hjson⟩
    · refine ⟨fs, parse_resumes_loop_cons_svcfail env fmt pk ck post fs acc ek he, ?_, ?_⟩
      · intro pc hpc
        exact absurd hpc (List.not_mem_nil pc)
      · exact fun q _ => rfl
    · refine ⟨fs,
        parse_resumes_loop_cons_jsonfail env fmt pk ck post fs acc t ek hsvc hjson, ?_, ?_⟩
      · intro pc hpc
        exact absurd hpc (List.not_mem_nil pc)
      · exact fun q _ => rfl
  | cons pc0 rest ih =>
    intro fs acc hwr hok hnodup
    obtain ⟨p, c⟩ := pc0
    obtain ⟨t, v, hsvc, hjson⟩ := hok (p, c) (List.mem_cons_self _ _)
    have hstep := parse_resumes_loop_cons_ok env fmt p c
      (rest ++ (pk, ck) :: post) fs acc t v hsvc hjson (hwr _)
    have hwr2 : ∀ q, ((fs.set (outPath p) "").set (outPath p) t).writable q = true :=
      fun q => hwr q
    have hok2 : ∀ pc ∈ rest, ∃ t v, env.svc (stem pc.1) pc.2 fmt = Except.ok t ∧
        jsonLoads t = Except.ok v := fun pc hpc => hok pc (List.mem_cons_of_mem _ hpc)
    rw [List.map_cons] at hnodup
    have hnd1 : outPath p ∉ rest.map (fun pc => outPath pc.1) := (List.nodup_cons.mp hnodup).1
    have hnd2 : (rest.map (fun pc => outPath pc.1)).Nodup := (List.nodup_cons.mp hnodup).2
    obtain ⟨fs1, hloop, hwrites, hframe⟩ :=
      ih ((fs.set (outPath p) "").set (outPath p) t) (acc ++ [v]) hwr2 hok2 hnd2
    refine ⟨fs1, by rw [List.cons_append, hstep, hloop], ?_, ?_⟩
    · intro pc hpc t2 ht2
      rcases List.mem_cons.mp hpc with he | hm
      · subst he
        have ht : t2 = t := Except.ok.inj (ht2.symm.trans hsvc)
        subst ht
        show fs1.get? (outPath p) = some t2
        rw [hframe (outPath p) hnd1, FS.get?_set_self]
      · exact hwrites pc hm t2 ht2
    · intro q hq
      rw [List.map_cons] at hq
      have hq1 : q ≠ outPath p := fun he => hq (he ▸ List.mem_cons_self _ _)
      have hq2 : q ∉ rest.map (fun pc => outPath pc.1) :=
        fun hm => hq (List.mem_cons_of_mem _ hm)
      rw [hframe q hq2, FS.get?_set_ne (fs.set (outPath p) "") _ q t hq1,
        FS.get?_set_ne fs _ q "" hq1]

theorem parse_resumes_eq (fs : FS) (env : PipelineEnv) (st : StoreEnv) :
    parse_resumes fs env st =
      (match parse_resumes_loop env (dumpTop (load_json_spec fs parsingFormatPath))
          (read_file_contents env.files (some ["../docx", "../pdf"])) fs [] with
       | (fs1, Except.error e) => (fs1, Except.error e)
       | (fs1, Except.ok parsed) => db_stage fs1 st parsed) := by
  unfold parse_resumes
  rw [load_json_ok]

theorem db_stage_fst (fs1 : FS) (st : StoreEnv) (parsed : List PyJson) :
    (db_stage fs1 st parsed).1 = fs1 := by
  unfold db_stage
  cases hdb : load_json fs1 mongoConfigPath with
  | error e => rfl
  | ok o =>
    cases o with
    | none => rfl
    | some j =>
      cases j with
      | prim v => rfl
      | obj cfg =>
        show (match mongo_enter st (jGet cfg "uri") (jGet cfg "database_name")
            (jGet cfg "collection_name") with
          | Except.error e => (fs1, Except.error e)
          | Except.ok _ =>
            match insert_documents st parsed with
            | Except.error e => (fs1, Except.error e)
            | Except.ok _ => (fs1, Except.ok ())).1 = fs1
        cases mongo_enter st (jGet cfg "uri") (jGet cfg "database_name")
            (jGet cfg "collection_name") with
        | error e => rfl
        | ok u =>
          show (match insert_documents st parsed with
            | Except.error e => (fs1, Except.error e)
            | Except.ok _ => (fs1, Except.ok ())).1 = fs1
          cases insert_documents st parsed with
          | error e => rfl
          | ok ids => rfl

theorem db_stage_none (fs1 : FS) (st : StoreEnv) (parsed : List PyJson)
    (h : load_json_spec fs1 mongoConfigPath = none) :
    db_stage fs1 st parsed =
      (fs1, Except.error (PyErr.attributeError "NoneType object has no attribute get")) := by
  unfold db_stage
  rw [load_json_ok, h]

/-! ## Claims about the pipeline -/

/-- C1 as stated is false: with a single document whose completion response
text is not valid JSON, the response is never written — `json.loads` runs
before `save_json` and its exception aborts the run, so the stem-named output
file is absent. -/
theorem c1_counterexample :
    (parse_resumes fsEmpty envInvalidJson stAllOk).1.get? (outPath "../docx/a.docx") = none ∧
    (parse_resumes fsEmpty envInvalidJson stAllOk).2 =
      Except.error (PyErr.jsonDecodeError "not json") := by
  constructor <;> rfl

/-- C1 (amended): the raw response text is written to the stem-named output
file for every document whose text parses as JSON; when a document's text
fails to parse, the run aborts with the decode error before the write, so
that document's output path is untouched. -/
theorem c1_raw_write_requires_valid_json (fs : FS) (env : PipelineEnv) (st : StoreEnv)
    (hwr : ∀ q, fs.writable q = true)
    (hnodup : ((read_file_contents env.files (some ["../docx", "../pdf"])).map
      (fun pc => outPath pc.1)).Nodup) :
    ((∀ pc ∈ read_file_contents env.files (some ["../docx", "../pdf"]), ∃ t v,
        env.svc (stem pc.1) pc.2 (dumpTop (load_json_spec fs parsingFormatPath)) =
          Except.ok t ∧ jsonLoads t = Except.ok v) →
      ∀ pc ∈ read_file_contents env.files (some ["../docx", "../pdf"]), ∀ t,
        env.svc (stem pc.1) pc.2 (dumpTop (load_json_spec fs parsingFormatPath)) =
          Except.ok t →
        (parse_resumes fs env st).1.get? (outPath pc.1) = some t) ∧
    (∀ pre pk ck post tk ek,
      read_file_contents env.files (some ["../docx", "../pdf"]) = pre ++ (pk, ck) :: post →
      (∀ pc ∈ pre, ∃ t v,
        env.svc (stem pc.1) pc.2 (dumpTop (load_json_spec fs parsingFormatPath)) =
          Except.ok t ∧ jsonLoads t = Except.ok v) →
      env.svc (stem pk) ck (dumpTop (load_json_spec fs parsingFormatPath)) = Except.ok tk →
      jsonLoads tk = Except.error ek →
      (parse_resumes fs env st).1.get? (outPath pk) = fs.get? (outPath pk) ∧
      (parse_resumes fs env st).2 = Except.error ek) := by
  constructor
  · intro hok pc hpc t ht
    obtain ⟨fs1, parsed, hloop, _, _, hwrites⟩ :=
      parse_resumes_loop_writes env _ _ fs [] hwr hok
    have h1 : (parse_resumes fs env st).1 = fs1 := by
      rw [parse_resumes_eq, hloop]
      show (db_stage fs1 st parsed).1 = fs1
      exact db_stage_fst fs1 st parsed
    rw [h1]
    exact hwrites hnodup pc hpc t ht
  · intro pre pk ck post tk ek hentries hok hsvck hjsonk
    have hnodup2 := hnodup
    rw [hentries, List.map_append] at hnodup2
    have hnodpre : (pre.map (fun pc => outPath pc.1)).Nodup := hnodup2.of_append_left
    obtain ⟨fs1, hloop, _, hframe⟩ := parse_resumes_loop_aborts env _ pk ck post ek
      (Or.inr ⟨tk, hsvck, hjsonk⟩) pre fs [] hwr hok hnodpre
    have hpr : parse_resumes fs env st = (fs1, Except.error ek) := by
      rw [parse_resumes_eq, hentries, hloop]
    constructor
    · rw [hpr]
      apply hframe
      intro hmem
      exact (List.disjoint_of_nodup_append hnodup2) hmem
        (List.mem_map_of_mem _ (List.mem_cons_self _ _))
    · rw [hpr]

theorem c1_witness :
    (parse_resumes fsEmpty envInvalidJson stAllOk).1.get? (outPath "../docx/a.docx") =
      fsEmpty.get? (outPath "../docx/a.docx") ∧
    (parse_resumes fsEmpty envInvalidJson stAllOk).2 =
      Except.error (PyErr.jsonDecodeError "not json") :=
  (c1_raw_write_requires_valid_json fsEmpty envInvalidJson stAllOk (fun _ => rfl)
      (by decide)).2
    [] "../docx/a.docx" "resume text" [] "not json" (PyErr.jsonDecodeError "not json")
    rfl (fun pc hpc => absurd hpc (List.not_mem_nil pc)) rfl rfl

/-- C2: if the completion service raises (or its response fails JSON parsing)
on document k of the batch, `parse_resumes` aborts with that error: the
output paths of document k and of every later document are untouched, while
output files already written for the earlier documents remain on disk (no
rollback). -/
theorem c2_failure_aborts_no_rollback (fs : FS) (env : PipelineEnv) (st : StoreEnv)
    (pre : List (String × String)) (pk ck : String) (post : List (String × String))
    (ek : PyErr)
    (hentries : read_file_contents env.files (some ["../docx", "../pdf"]) =
      pre ++ (pk, ck) :: post)
    (hwr : ∀ q, fs.writable q = true)
    (hnodup : ((pre ++ (pk, ck) :: post).map (fun pc => outPath pc.1)).Nodup)
    (hok : ∀ pc ∈ pre, ∃ t v,
      env.svc (stem pc.1) pc.2 (dumpTop (load_json_spec fs parsingFormatPath)) = Except.ok t ∧
      jsonLoads t = Except.ok v)
    (hfail : env.svc (stem pk) ck (dumpTop (load_json_spec fs parsingFormatPath)) =
        Except.error ek ∨
      (∃ t, env.svc (stem pk) ck (dumpTop (load_json_spec fs parsingFormatPath)) =
        Except.ok t ∧ jsonLoads t = Except.error ek)) :
    (parse_resumes fs env st).2 = Except.error ek ∧
    (∀ pc ∈ pre, ∀ t,
      env.svc (stem pc.1) pc.2 (dumpTop (load_json_spec fs parsingFormatPath)) = Except.ok t →
      (parse_resumes fs env st).1.get? (outPath pc.1) = some t) ∧
    (∀ pc ∈ (pk, ck) :: post,
      (parse_resumes fs env st).1.get? (outPath pc.1) = fs.get? (outPath pc.1)) := by
  have hnodup2 := hnodup
  rw [List.map_append] at hnodup2
  have hnodpre : (pre.map (fun pc => outPath pc.1)).Nodup := hnodup2.of_append_left
  obtain ⟨fs1, hloop, hwrites, hframe⟩ :=
    parse_resumes_loop_aborts env _ pk ck post ek hfail pre fs [] hwr hok hnodpre
  have hpr : parse_resumes fs env st = (fs1, Except.error ek) := by
    rw [parse_resumes_eq, hentries, hloop]
  rw [hpr]
  refine ⟨rfl, hwrites, ?_⟩
  intro pc hpc
  apply hframe
  intro hmem
  exact (List.disjoint_of_nodup_append hnodup2) hmem (List.mem_map_of_mem _ hpc)

theorem c2_witness :
    (parse_resumes fsEmpty envFailSecond stAllOk).2 =
      Except.error (PyErr.exception "boom") ∧
    (∀ pc ∈ [("../docx/a.docx", "resume text")], ∀ t,
      envFailSecond.svc (stem pc.1) pc.2
        (dumpTop (load_json_spec fsEmpty parsingFormatPath)) = Except.ok t →
      (parse_resumes fsEmpty envFailSecond stAllOk).1.get? (outPath pc.1) = some t) ∧
    (∀ pc ∈ [("../docx/b.docx", "resume text"), ("../docx/c.docx", "resume text")],
      (parse_resumes fsEmpty envFailSecond stAllOk).1.get? (outPath pc.1) =
        fsEmpty.get? (outPath pc.1)) :=
  c2_failure_aborts_no_rollback fsEmpty envFailSecond stAllOk
    [("../docx/a.docx", "resume text")] "../docx/b.docx" "resume text"
    [("../docx/c.docx", "resume text")] (PyErr.exception "boom")
    rfl (fun _ => rfl) (by decide)
    (fun pc hpc => by
      rw [List.mem_singleton] at hpc
      subst hpc
      exact ⟨dumpObjStr [], PyJson.obj [], rfl, jsonLoads_dumpObjStr []⟩)
    (Or.inl rfl)

/-- C5: if the credential configuration file is absent, constructing the
pipeline raises (an `AttributeError` from calling `.get` on the `None` that
`load_json` returns — the `except FileNotFoundError` clause never fires
because `load_json` already swallowed that error), so the run aborts with the
filesystem untouched, before any document is extracted, sent to the
completion service, or persisted. -/
theorem c5_missing_credential_aborts (fs : FS) (env : PipelineEnv) (st : StoreEnv)
    (h : fs.get? apiKeyPath = none) :
    resume_parser_run fs env st =
      (fs, Except.error (PyErr.attributeError "NoneType object has no attribute get")) := by
  have hspec : load_json_spec fs apiKeyPath = none := by
    unfold load_json_spec openRead
    cases hre : fs.readErr apiKeyPath with
    | some e => rfl
    | none => rw [h]
  unfold resume_parser_run
  rw [set_openai_api_key_none fs hspec]

theorem c5_witness :
    resume_parser_run fsEmpty envNoDocs stAllOk =
      (fsEmpty, Except.error (PyErr.attributeError "NoneType object has no attribute get")) :=
  c5_missing_credential_aborts fsEmpty envNoDocs stAllOk rfl

/-- C6 as stated is false: with no store configuration file present (its
load yields `None`), `parse_resumes` does not skip the store stage — it
raises `AttributeError` from `db_config.get("uri")`, so the run does not
complete without error. -/
theorem c6_counterexample :
    parse_resumes fsEmpty envNoDocs stAllOk =
      (fsEmpty, Except.error (PyErr.attributeError "NoneType object has no attribute get")) := by
  rfl

/-- C6 (amended): the document-store configuration is effectively mandatory:
whenever the per-document loop completes and loading the store configuration
yields the absence sentinel, `parse_resumes` raises `AttributeError` (from
calling `.get` on `None`) instead of skipping the store connection and batch
insert. -/
theorem c6_missing_store_config_raises (fs : FS) (env : PipelineEnv) (st : StoreEnv)
    (fs1 : FS) (parsed : List PyJson)
    (hloop : parse_resumes_loop env (dumpTop (load_json_spec fs parsingFormatPath))
      (read_file_contents env.files (some ["../docx", "../pdf"])) fs [] =
      (fs1, Except.ok parsed))
    (hcfg : load_json_spec fs1 mongoConfigPath = none) :
    parse_resumes fs env st =
      (fs1, Except.error (PyErr.attributeError "NoneType object has no attribute get")) := by
  rw [parse_resumes_eq, hloop]
  show db_stage fs1 st parsed =
    (fs1, Except.error (PyErr.attributeError "NoneType object has no attribute get"))
  exact db_stage_none fs1 st parsed hcfg

theorem c6_witness :
    parse_resumes fsEmpty envNoDocs stAllFail =
      (fsEmpty, Except.error (PyErr.attributeError "NoneType object has no attribute get")) :=
  c6_missing_store_config_raises fsEmpty envNoDocs stAllFail fsEmpty [] rfl rfl

/-- C9: if the credential file exists and parses as a JSON object without an
`"api_key"` field, `_set_openai_api_key` completes without raising and
installs the absence value (`None`) as the credential, so the pipeline
proceeds with a missing credential. -/
theorem c9_missing_api_key_field (fs : FS) (m : List (String × JVal))
    (hload : load_json_spec fs apiKeyPath = some (PyJson.obj m))
    (hnone : jGet m "api_key" = none) :
    set_openai_api_key fs = Except.ok none := by
  rw [set_openai_api_key_obj fs m hload, hnone]

theorem c9_witness : set_openai_api_key fsApiKeyEmptyObj = Except.ok none :=
  c9_missing_api_key_field fsApiKeyEmptyObj [] (by decide) rfl
